import Mathlib

/-!
Shallow embedding of the luxalud appointment-booking repository's
availability computation (`useAvailableSlots` in src/lib hooks) and of the
`create-appointment` edge function (supabase/functions/create-appointment).

Time model: civil time with no timezone, at whole-minute precision.
A time-of-day is a number of minutes since midnight (parse "HH:mm:ss");
an absolute datetime is `day * 1440 + minuteOfDay` (days since epoch;
1970-01-01, day 0, was a Thursday, so JS `Date.getDay` of day `d` is
`(d + 4) % 7`).  The date-fns calls of the source translate as:
`addMinutes` is addition, `isBefore`/`isAfter` are `<` on these numbers,
and `format(t, "HH:mm")` of a date that may have rolled past midnight is
the minute-of-day `t % 1440`.
-/

namespace Luxalud

/-- Row of the `schedules` table (weekly recurring rule). -/
structure Schedule where
  doctor_id : Nat
  day_of_week : Nat
  start_time : Nat
  end_time : Nat
  slot_duration : Nat
  is_active : Bool
deriving DecidableEq

/-- Row of the `appointments` table, the fields the availability query selects. -/
structure Appointment where
  doctor_id : Nat
  appointment_date : Nat
  start_time : Nat
  end_time : Nat
  status : String
deriving DecidableEq

/-- Row of the `schedule_blocks` table: absolute start/end datetimes. -/
structure ScheduleBlock where
  doctor_id : Nat
  start_datetime : Nat
  end_datetime : Nat
deriving DecidableEq

/-- `format(t, "HH:mm")` of a datetime that may have rolled past midnight:
the minute-of-day component. -/
def fmtHM (t : Nat) : Nat := t % 1440

/-- `date.getDay()` for a civil day index (day 0 = 1970-01-01, a Thursday). -/
def dayOfWeek (d : Nat) : Nat := (d + 4) % 7

/-- The while-loop guard of the slot-generation loop:
`isBefore(addMinutes(currentSlot, duration), endTime) ||
 format(addMinutes(currentSlot, duration), "HH:mm") === format(endTime, "HH:mm")`. -/
def slotCond (duration endT cur : Nat) : Bool :=
  cur + duration < endT || fmtHM (cur + duration) == fmtHM endT

/-- The candidate-generation while-loop for one schedule rule, with explicit
fuel (`none` = the fuel ran out before the loop exited; the source loop has
no bound of its own).  Pushes `format(currentSlot, "HH:mm")` then advances
`currentSlot` by `slot_duration` minutes. -/
def genSlots (duration slotDur endT : Nat) : Nat → Nat → Option (List Nat)
  | 0, _ => none
  | fuel + 1, cur =>
    if slotCond duration endT cur then
      (genSlots duration slotDur endT fuel (cur + slotDur)).map (fun rest => fmtHM cur :: rest)
    else
      some []

/-- `for (const schedule of schedules) { ... }`: concatenation of each rule's
candidates, in the order the rules were fetched. -/
def allSlotsOf (duration fuel : Nat) : List Schedule → Option (List Nat)
  | [] => some []
  | s :: rest =>
    match genSlots duration s.slot_duration s.end_time fuel s.start_time with
    | none => none
    | some l => (allSlotsOf duration fuel rest).map (fun r => l ++ r)

/-- The schedules query: `eq doctor_id, eq day_of_week, eq is_active true`. -/
def fetchSchedules (db : List Schedule) (doctorId dow : Nat) : List Schedule :=
  db.filter (fun s => s.doctor_id == doctorId && s.day_of_week == dow && s.is_active)

/-- The appointments query: `eq doctor_id, eq appointment_date, neq status cancelada`. -/
def fetchAppointments (db : List Appointment) (doctorId dateDay : Nat) : List Appointment :=
  db.filter (fun a =>
    a.doctor_id == doctorId && a.appointment_date == dateDay && a.status != "cancelada")

/-- The schedule_blocks query: `eq doctor_id`, `lte start_datetime endOfDate`,
`gte end_datetime startOfDate`, where the requested date spans absolute
minutes `dateDay*1440` to `dateDay*1440 + 1439` (23:59:59.999). -/
def fetchBlocks (db : List ScheduleBlock) (doctorId dateDay : Nat) : List ScheduleBlock :=
  db.filter (fun b =>
    b.doctor_id == doctorId &&
    b.start_datetime ≤ dateDay * 1440 + 1439 &&
    dateDay * 1440 ≤ b.end_datetime)

/-- `isBefore(slotStart, aptEnd) && isAfter(slotEnd, aptStart)` for one
appointment, slot times being minutes of day on the requested date. -/
def apptOverlaps (duration slot : Nat) (a : Appointment) : Bool :=
  slot < a.end_time && a.start_time < slot + duration

/-- `isBefore(slotDateTime, blockEnd) && isAfter(slotEndDateTime, blockStart)`
for one block, the slot lifted to an absolute datetime on the requested date. -/
def blockOverlaps (duration dateDay slot : Nat) (b : ScheduleBlock) : Bool :=
  dateDay * 1440 + slot < b.end_datetime &&
  b.start_datetime < dateDay * 1440 + slot + duration

/-- Membership in the `occupiedSlots` set: some fetched appointment or some
fetched block overlaps the slot. -/
def isOccupied (duration dateDay : Nat) (appts : List Appointment)
    (blocks : List ScheduleBlock) (slot : Nat) : Bool :=
  appts.any (apptOverlaps duration slot) || blocks.any (blockOverlaps duration dateDay slot)

/-- The final `allSlots.filter(...)`: drop occupied slots, drop slots whose
minute component is neither :00 nor :30, and, when the requested date is the
current civil date, drop slots strictly before the current moment. -/
def availableFilter (duration dateDay nowAbs : Nat) (appts : List Appointment)
    (blocks : List ScheduleBlock) (allSlots : List Nat) : List Nat :=
  let isToday := nowAbs / 1440 == dateDay
  allSlots.filter (fun slot =>
    if isOccupied duration dateDay appts blocks slot then false
    else if !(slot % 60 == 0 || slot % 60 == 30) then false
    else if isToday && dateDay * 1440 + slot < nowAbs then false
    else true)

/-- The whole `queryFn` of `useAvailableSlots`.  `doctorId`/`date` are
`Option`s (the source returns `[]` when either is falsy); the three database
tables are passed as snapshots; `nowAbs` is `new Date()` in absolute minutes;
`fuel` bounds the unbounded source loop (`none` = the loop did not finish
within `fuel` iterations). -/
def useAvailableSlots (fuel : Nat) (doctorId : Option Nat) (date : Option Nat)
    (duration : Nat) (scheduleDb : List Schedule) (apptDb : List Appointment)
    (blockDb : List ScheduleBlock) (nowAbs : Nat) : Option (List Nat) :=
  match doctorId, date with
  | some did, some d =>
    let schedules := fetchSchedules scheduleDb did (dayOfWeek d)
    if schedules.isEmpty then some []
    else
      let appts := fetchAppointments apptDb did d
      let blocks := fetchBlocks blockDb did d
      match allSlotsOf duration fuel schedules with
      | none => none
      | some slots => some (availableFilter duration d nowAbs appts blocks slots)
  | _, _ => some []

/-- The generation loop for one rule terminates: some finite fuel suffices. -/
def loopTerminates (duration slotDur endT startT : Nat) : Prop :=
  ∃ fuel, (genSlots duration slotDur endT fuel startT).isSome

/-! ### The create-appointment edge function -/

/-- ASCII letter, for the validation character classes. -/
def isAsciiLetter (c : Char) : Bool :=
  ('a' ≤ c && c ≤ 'z') || ('A' ≤ c && c ≤ 'Z')

/-- The `À-ÿ` range of the name pattern (code points U+00C0..U+00FF). -/
def isLatin1Letter (c : Char) : Bool :=
  'À' ≤ c && c ≤ 'ÿ'

/-- JS regex `\s` restricted to the common ASCII whitespace characters. -/
def isWsChar (c : Char) : Bool :=
  c = ' ' || c = '\t' || c = '\n' || c = '\r' || c = '\x0b' || c = '\x0c'

/-- One character of `[a-zA-ZÀ-ÿ\s'.,-]` (code point 39 is the apostrophe). -/
def isNameChar (c : Char) : Bool :=
  isAsciiLetter c || isLatin1Letter c || isWsChar c ||
  c = '.' || c = ',' || c = '-' || c.toNat == 39

/-- `nameRegex = /^[a-zA-ZÀ-ÿ\s'.,-]{2,100}$/`. -/
def nameTest (s : String) : Bool :=
  2 ≤ s.length && s.length ≤ 100 && s.data.all isNameChar

/-- One character of `[^\s@]`. -/
def isEmailChar (c : Char) : Bool :=
  !(isWsChar c) && c ≠ '@'

/-- `emailRegex = /^[^\s@]+@[^\s@]+\.[^\s@]+$/`: a nonempty `@`-free,
whitespace-free local part, one `@`, and a domain containing a dot that has
at least one character on each side. -/
def emailTest (s : String) : Bool :=
  let cs := s.data
  let localPart := cs.takeWhile (fun c => c ≠ '@')
  match cs.dropWhile (fun c => c ≠ '@') with
  | '@' :: domain =>
    !localPart.isEmpty && localPart.all isEmailChar && domain.all isEmailChar &&
    ((domain.drop 1).dropLast).contains '.'
  | _ => false

/-- `phoneRegex = /^[\d\s()+-]{8,20}$/`. -/
def phoneTest (s : String) : Bool :=
  8 ≤ s.length && s.length ≤ 20 &&
  s.data.all (fun c => c.isDigit || isWsChar c || c = '(' || c = ')' || c = '+' || c = '-')

/-- `/^\d{4}-\d{2}-\d{2}$/`. -/
def dateTest (s : String) : Bool :=
  match s.data with
  | [a, b, c, d, h1, e, f, h2, g, h] =>
    a.isDigit && b.isDigit && c.isDigit && d.isDigit && h1 = '-' &&
    e.isDigit && f.isDigit && h2 = '-' && g.isDigit && h.isDigit
  | _ => false

/-- `/^\d{2}:\d{2}$/`. -/
def timeTest (s : String) : Bool :=
  match s.data with
  | [a, b, c, d, e] => a.isDigit && b.isDigit && c = ':' && d.isDigit && e.isDigit
  | _ => false

/-- `email.toLowerCase().trim()`. -/
def normalizeEmail (email : String) : String :=
  email.toLower.trim

/-- `phone.replace(/\D/g, "")`. -/
def normalizePhone (phone : String) : String :=
  ⟨phone.data.filter Char.isDigit⟩

/-- The JSON request body of the edge function; absent fields are `none`
(JS `undefined`), and a JS falsy string is `none` or `some ""`. -/
structure BookingRequest where
  doctor_id : Option String
  office_id : Option String
  patient_name : Option String
  patient_email : Option String
  patient_phone : Option String
  reason : Option String
  notes : Option String
  appointment_date : Option String
  start_time : Option String
  end_time : Option String
  duration : Option Int
  reqType : Option String
deriving DecidableEq

/-- `!x || !regex.test(x)` for a string field: missing, empty, or failing its test. -/
def strFieldBad (test : String → Bool) : Option String → Bool
  | none => true
  | some s => s == "" || !test s

/-- `validateRequest`: the if-chain of checks, first failure wins, `none` = valid.
Field checks are in source order; `!data.duration` is falsy for `0` as well. -/
def validateRequest (data : BookingRequest) : Option String :=
  if data.doctor_id.getD "" == "" then some "ID de médico inválido"
  else if strFieldBad nameTest data.patient_name then
    some "Nombre inválido (2-100 caracteres, solo letras)"
  else if strFieldBad emailTest data.patient_email then
    some "Correo electrónico inválido"
  else if strFieldBad phoneTest data.patient_phone then
    some "Teléfono inválido (8-20 dígitos)"
  else if (match data.reason with
           | none => true
           | some s => s == "" || s.length < 3 || 500 < s.length) then
    some "Motivo de consulta inválido (3-500 caracteres)"
  else if (match data.notes with
           | none => false
           | some s => s != "" && 2000 < s.length) then
    some "Notas demasiado largas (máx 2000 caracteres)"
  else if strFieldBad dateTest data.appointment_date then
    some "Fecha de cita inválida"
  else if strFieldBad timeTest data.start_time then
    some "Hora de inicio inválida"
  else if strFieldBad timeTest data.end_time then
    some "Hora de fin inválida"
  else if (match data.duration with
           | none => true
           | some d => d == 0 || d < 15 || 180 < d) then
    some "Duración inválida (15-180 minutos)"
  else if !(data.reqType == some "presencial" || data.reqType == some "virtual") then
    some "Tipo de cita inválido"
  else none

/-- Row of the `appointments` table as written by the edge function. -/
structure DbAppointment where
  doctor_id : String
  office_id : Option String
  patient_id : String
  patient_name : String
  patient_email : String
  patient_phone : String
  reason : String
  notes : Option String
  appointment_date : String
  start_time : String
  end_time : String
  duration : Int
  apptType : String
  status : String
deriving DecidableEq

/-- Row of the `patients` table, the fields the edge function touches. -/
structure DbPatient where
  id : String
  full_name : String
  email : String
  phone : String
deriving DecidableEq

/-- Snapshot of the two tables the edge function reads and writes. -/
structure Db where
  appointments : List DbAppointment
  patients : List DbPatient
deriving DecidableEq

/-- supabase `maybeSingle()`: the row when the query matched exactly one row;
`null` on zero rows, and also `null` on two or more rows (the error it raises
then is discarded by the destructuring in the source). -/
def maybeSingle {α : Type} : List α → Option α
  | [x] => some x
  | _ => none

/-- The duplicate-appointment query: same doctor, date and start time,
status not `cancelada`. -/
def conflictsOf (data : BookingRequest) (db : Db) : List DbAppointment :=
  db.appointments.filter (fun a =>
    a.doctor_id == data.doctor_id.getD "" &&
    a.appointment_date == data.appointment_date.getD "" &&
    a.start_time == data.start_time.getD "" &&
    a.status != "cancelada")

/-- The request handler of the create-appointment edge function, from input
validation on (CORS, rate limiting and JSON parsing are outside this model;
the pure model's inserts cannot fail, so the 500 branches are unreachable).
Returns the HTTP status code and the database after the request.
`freshPatientId` stands for the id the database would generate for a newly
inserted patient row. -/
def createAppointment (data : BookingRequest) (db : Db) (freshPatientId : String) :
    Nat × Db :=
  match validateRequest data with
  | some _ => (400, db)
  | none =>
    let normalizedEmail := normalizeEmail (data.patient_email.getD "")
    let normalizedPhone := normalizePhone (data.patient_phone.getD "")
    match maybeSingle (conflictsOf data db) with
    | some _ => (409, db)
    | none =>
      let byEmail := maybeSingle (db.patients.filter (fun p => p.email == normalizedEmail))
      let byPhone := maybeSingle (db.patients.filter (fun p => p.phone == normalizedPhone))
      let found :=
        match byEmail with
        | some p => (p.id, db.patients)
        | none =>
          match byPhone with
          | some p => (p.id, db.patients)
          | none =>
            (freshPatientId,
             db.patients ++
               [({ id := freshPatientId
                   full_name := (data.patient_name.getD "").trim
                   email := normalizedEmail
                   phone := normalizedPhone } : DbPatient)])
      let newAppt : DbAppointment :=
        { doctor_id := data.doctor_id.getD ""
          office_id := match data.office_id with
                       | some s => if s == "" then none else some s
                       | none => none
          patient_id := found.1
          patient_name := (data.patient_name.getD "").trim
          patient_email := normalizedEmail
          patient_phone := normalizedPhone
          reason := (data.reason.getD "").trim
          notes := match data.notes with
                   | some s => if s.trim == "" then none else some s.trim
                   | none => none
          appointment_date := data.appointment_date.getD ""
          start_time := data.start_time.getD ""
          end_time := data.end_time.getD ""
          duration := data.duration.getD 0
          apptType := data.reqType.getD ""
          status := "pendiente" }
      (201, { appointments := db.appointments ++ [newAppt], patients := found.2 })

/-! ### Helper lemmas -/

/-- Unfolding of the loop guard into a proposition. -/
theorem slotCond_iff (duration endT cur : Nat) :
    slotCond duration endT cur = true ↔
      cur + duration < endT ∨ (cur + duration) % 1440 = endT % 1440 := by
  simp [slotCond, fmtHM]

/-- If the wall-clock minute of `a + s` equals that of `a`, the step `s` is a
multiple of a full day. -/
theorem dvd_of_mod_add_eq {a s : Nat} (h : (a + s) % 1440 = a % 1440) : 1440 ∣ s := by
  have h' : Nat.ModEq 1440 a (a + s) := h.symm
  have := (Nat.modEq_iff_dvd' (Nat.le_add_right a s)).mp h'
  simpa using this

/-- Under in-range rule data, a true loop guard really means the slot fits:
`cur + duration ≤ endT` (the wall-clock equality cannot be a wrap-around). -/
theorem slotCond_le {duration slotDur endT startT cur : Nat}
    (hse : startT < endT) (he : endT < 1440) (hd : duration ≤ 1439) (hsd : slotDur ≤ 1439)
    (hcur : cur = startT ∨ cur + duration ≤ endT + slotDur)
    (hc : slotCond duration endT cur = true) : cur + duration ≤ endT := by
  rcases (slotCond_iff duration endT cur).mp hc with h | h
  · omega
  · rcases le_or_lt (cur + duration) endT with hle | hlt
    · exact hle
    · exfalso
      have hmod : (endT + (cur + duration - endT)) % 1440 = endT % 1440 := by
        have : endT + (cur + duration - endT) = cur + duration := by omega
        rw [this, h]
      have hdvd : 1440 ∣ (cur + duration - endT) := dvd_of_mod_add_eq hmod
      have hge : 1440 ≤ cur + duration - endT := Nat.le_of_dvd (by omega) hdvd
      omega

/-- Characterization of the candidates one rule generates, for in-range rule
data: the loop emits exactly the times `startT + k * slot_duration` whose slot
of `duration` minutes ends no later than `endT`, in strictly increasing order. -/
theorem genSlots_spec {duration slotDur endT startT : Nat}
    (hse : startT < endT) (he : endT < 1440) (hd : duration ≤ 1439)
    (hsd1 : 1 ≤ slotDur) (hsd : slotDur ≤ 1439) :
    ∀ fuel cur l, (cur = startT ∨ cur + duration ≤ endT + slotDur) →
      genSlots duration slotDur endT fuel cur = some l →
      (∀ t, t ∈ l ↔ ∃ k, t = cur + k * slotDur ∧ t + duration ≤ endT) ∧
        l.Sorted (· < ·) := by
  intro fuel
  induction fuel with
  | zero => intro cur l _ h; simp [genSlots] at h
  | succ n ih =>
    intro cur l hcur h
    unfold genSlots at h
    by_cases hc : slotCond duration endT cur = true
    · rw [if_pos hc] at h
      obtain ⟨l', hl', hcons⟩ := Option.map_eq_some'.mp h
      have hle : cur + duration ≤ endT := slotCond_le hse he hd hsd hcur hc
      have hfmt : fmtHM cur = cur := Nat.mod_eq_of_lt (by omega)
      obtain ⟨hmem', hsort'⟩ := ih (cur + slotDur) l' (Or.inr (by omega)) hl'
      subst hcons
      constructor
      · intro t
        rw [hfmt]
        simp only [List.mem_cons, hmem']
        constructor
        · rintro (rfl | ⟨k, rfl, hk⟩)
          · exact ⟨0, by omega, by omega⟩
          · refine ⟨k + 1, ?_, hk⟩
            have : (k + 1) * slotDur = k * slotDur + slotDur := Nat.succ_mul k slotDur
            omega
        · rintro ⟨k, rfl, hk⟩
          cases k with
          | zero => left; omega
          | succ k =>
            right
            refine ⟨k, ?_, hk⟩
            have : (k + 1) * slotDur = k * slotDur + slotDur := Nat.succ_mul k slotDur
            omega
      · rw [hfmt]
        refine List.sorted_cons.mpr ⟨?_, hsort'⟩
        intro t ht
        obtain ⟨k, rfl, _⟩ := (hmem' t).mp ht
        have : 0 ≤ k * slotDur := Nat.zero_le _
        omega
    · rw [if_neg hc] at h
      have hl : l = [] := by
        simpa using h.symm
      subst hl
      have hgt : endT < cur + duration := by
        rcases le_or_lt (cur + duration) endT with hle | hlt
        · exfalso
          apply hc
          rw [slotCond_iff]
          rcases Nat.lt_or_ge (cur + duration) endT with h1 | h1
          · exact Or.inl h1
          · have : cur + duration = endT := by omega
            exact Or.inr (by rw [this])
        · exact hlt
      refine ⟨?_, List.sorted_nil⟩
      intro t
      simp only [List.not_mem_nil, false_iff]
      rintro ⟨k, rfl, hk⟩
      have : 0 ≤ k * slotDur := Nat.zero_le _
      omega

/-- One extra unit of fuel never hurts. -/
theorem genSlots_isSome_succ {duration slotDur endT : Nat} :
    ∀ fuel cur, (genSlots duration slotDur endT fuel cur).isSome →
      (genSlots duration slotDur endT (fuel + 1) cur).isSome := by
  intro fuel
  induction fuel with
  | zero => intro cur h; simp [genSlots] at h
  | succ n ih =>
    intro cur h
    unfold genSlots at h ⊢
    by_cases hc : slotCond duration endT cur = true
    · rw [if_pos hc] at h ⊢
      rw [Option.isSome_map'] at h ⊢
      exact ih _ h
    · rw [if_neg hc] at h ⊢
      simp

/-- Fuel monotonicity of the loop's completion. -/
theorem genSlots_isSome_mono {duration slotDur endT : Nat} {fuel fuel' : Nat}
    (hle : fuel ≤ fuel') {cur : Nat}
    (h : (genSlots duration slotDur endT fuel cur).isSome) :
    (genSlots duration slotDur endT fuel' cur).isSome := by
  induction fuel' with
  | zero =>
    have : fuel = 0 := by omega
    subst this
    exact h
  | succ m ih =>
    rcases le_or_lt fuel m with h1 | h1
    · exact genSlots_isSome_succ m cur (ih h1)
    · have : fuel = m + 1 := by omega
      subst this
      exact h

/-- Unfolding equation for one iteration of the loop. -/
theorem genSlots_succ (duration slotDur endT fuel cur : Nat) :
    genSlots duration slotDur endT (fuel + 1) cur =
      if slotCond duration endT cur then
        (genSlots duration slotDur endT fuel (cur + slotDur)).map
          (fun rest => fmtHM cur :: rest)
      else some [] := rfl

/-- The loop exits within `endT - (cur + duration) + 2` iterations whenever the
step is positive and not a multiple of a full day: once `cur + duration`
passes `endT`, the wall-clock equality cannot hold at two consecutive cursor
positions. -/
theorem genSlots_exits {duration slotDur endT : Nat}
    (hsd1 : 1 ≤ slotDur) (hnd : ¬ (1440 ∣ slotDur)) :
    ∀ cur, (genSlots duration slotDur endT (endT - (cur + duration) + 2) cur).isSome := by
  have main : ∀ m cur, endT - (cur + duration) = m →
      (genSlots duration slotDur endT (m + 2) cur).isSome := by
    intro m
    induction m using Nat.strong_induction_on with
    | _ m ih =>
      intro cur hm
      by_cases hc : slotCond duration endT cur = true
      · by_cases hlt : cur + duration < endT
        · have hm0 : 0 < m := by omega
          have hnext : endT - (cur + slotDur + duration) = m - slotDur := by omega
          have hrec := ih (m - slotDur) (by omega) (cur + slotDur) hnext
          have hrec' : (genSlots duration slotDur endT (m + 1) (cur + slotDur)).isSome :=
            genSlots_isSome_mono (by omega) hrec
          have : m + 2 = (m + 1) + 1 := rfl
          rw [this, genSlots_succ, if_pos hc, Option.isSome_map']
          exact hrec'
        · have hmod : (cur + duration) % 1440 = endT % 1440 := by
            rcases (slotCond_iff duration endT cur).mp hc with h | h
            · omega
            · exact h
          have hcfalse : ¬ (slotCond duration endT (cur + slotDur) = true) := by
            rw [slotCond_iff]
            push_neg
            refine ⟨by omega, ?_⟩
            intro heq
            apply hnd
            apply dvd_of_mod_add_eq (a := cur + duration) (s := slotDur)
            rw [show cur + duration + slotDur = cur + slotDur + duration by omega, heq, hmod]
          have : m + 2 = (m + 1) + 1 := rfl
          rw [this, genSlots_succ, if_pos hc, Option.isSome_map']
          have : m + 1 = m + 1 := rfl
          rw [show (m + 1) = m + 1 from rfl, genSlots_succ, if_neg hcfalse]
          simp
      · rw [show m + 2 = (m + 1) + 1 from rfl, genSlots_succ, if_neg hc]
        simp
  intro cur
  exact main _ cur rfl

/-- With `slot_duration = 1440` and a rule where the first candidate ends
exactly at `end_time`, the wall-clock guard holds at every iteration:
the loop never exits, whatever the fuel. -/
theorem genSlots_diverges_1440 :
    ∀ fuel k, genSlots 60 1440 600 fuel (540 + 1440 * k) = none := by
  intro fuel
  induction fuel with
  | zero => intro k; rfl
  | succ n ih =>
    intro k
    have hc : slotCond 60 600 (540 + 1440 * k) = true := by
      rw [slotCond_iff]
      right
      have h1 : 540 + 1440 * k + 60 = 600 + 1440 * k := by omega
      rw [h1, Nat.add_mul_mod_self_left]
    rw [genSlots_succ, if_pos hc]
    have h2 : 540 + 1440 * k + 1440 = 540 + 1440 * (k + 1) := by omega
    rw [h2, ih (k + 1)]
    rfl

/-- With `slot_duration = 0` the cursor never advances, so a rule whose first
candidate fits never exits the loop. -/
theorem genSlots_diverges_0 :
    ∀ fuel, genSlots 60 0 600 fuel 540 = none := by
  intro fuel
  induction fuel with
  | zero => rfl
  | succ n ih =>
    have hc : slotCond 60 600 540 = true := by
      rw [slotCond_iff]
      right
      rfl
    rw [genSlots_succ, if_pos hc, ih]
    rfl

/-- A single fetched rule contributes exactly its own loop's output. -/
theorem allSlotsOf_single (duration fuel : Nat) (s : Schedule) :
    allSlotsOf duration fuel [s] =
      genSlots duration s.slot_duration s.end_time fuel s.start_time := by
  unfold allSlotsOf
  cases h : genSlots duration s.slot_duration s.end_time fuel s.start_time with
  | none => rfl
  | some l => simp [allSlotsOf]

/-- Membership in the final filter output, as a proposition. -/
theorem availableFilter_mem (duration dateDay nowAbs : Nat) (appts : List Appointment)
    (blocks : List ScheduleBlock) (allSlots : List Nat) (t : Nat) :
    t ∈ availableFilter duration dateDay nowAbs appts blocks allSlots ↔
      t ∈ allSlots ∧
      isOccupied duration dateDay appts blocks t = false ∧
      (t % 60 = 0 ∨ t % 60 = 30) ∧
      (nowAbs / 1440 = dateDay → nowAbs ≤ dateDay * 1440 + t) := by
  unfold availableFilter
  rw [List.mem_filter]
  refine and_congr_right (fun _ => ?_)
  by_cases hocc : isOccupied duration dateDay appts blocks t = true
  · simp [hocc]
  · have hocc' : isOccupied duration dateDay appts blocks t = false := by
      simpa using hocc
    by_cases hgrid : t % 60 = 0 ∨ t % 60 = 30
    · by_cases htoday : nowAbs / 1440 = dateDay
      · by_cases hpast : dateDay * 1440 + t < nowAbs
        · simp [hocc', hgrid, htoday, hpast]
          try omega
        · simp [hocc', hgrid, htoday, hpast]
          try omega
      · simp [hocc', hgrid, htoday]
    · have h0 : ¬ (t % 60 = 0) := fun h => hgrid (Or.inl h)
      have h30 : ¬ (t % 60 = 30) := fun h => hgrid (Or.inr h)
      simp [hocc', h0, h30]

/-- Reduction of `useAvailableSlots` when both arguments are present. -/
theorem useAvailableSlots_some (fuel did d duration : Nat) (sdb : List Schedule)
    (adb : List Appointment) (bdb : List ScheduleBlock) (nowAbs : Nat) :
    useAvailableSlots fuel (some did) (some d) duration sdb adb bdb nowAbs =
      (if (fetchSchedules sdb did (dayOfWeek d)).isEmpty then some []
       else
         match allSlotsOf duration fuel (fetchSchedules sdb did (dayOfWeek d)) with
         | none => none
         | some slots =>
           some (availableFilter duration d nowAbs (fetchAppointments adb did d)
             (fetchBlocks bdb did d) slots)) := rfl

/-- Full characterization of membership in the computed output, given that
the generation loops completed. -/
theorem mem_useAvailableSlots {fuel did d duration nowAbs : Nat}
    {sdb : List Schedule} {adb : List Appointment} {bdb : List ScheduleBlock}
    {out allS : List Nat}
    (hu : useAvailableSlots fuel (some did) (some d) duration sdb adb bdb nowAbs = some out)
    (ha : allSlotsOf duration fuel (fetchSchedules sdb did (dayOfWeek d)) = some allS) :
    ∀ t, t ∈ out ↔
      t ∈ allS ∧
      isOccupied duration d (fetchAppointments adb did d) (fetchBlocks bdb did d) t = false ∧
      (t % 60 = 0 ∨ t % 60 = 30) ∧
      (nowAbs / 1440 = d → nowAbs ≤ d * 1440 + t) := by
  intro t
  rw [useAvailableSlots_some] at hu
  by_cases hemp : (fetchSchedules sdb did (dayOfWeek d)).isEmpty
  · have hnil : fetchSchedules sdb did (dayOfWeek d) = [] := by
      simpa [List.isEmpty_iff] using hemp
    rw [hnil] at ha
    have hall : allS = [] := by
      simpa [allSlotsOf] using ha.symm
    rw [if_pos hemp] at hu
    have hout : out = [] := by
      simpa using hu.symm
    subst hall hout
    simp
  · rw [if_neg hemp, ha] at hu
    have hout : out = availableFilter duration d nowAbs (fetchAppointments adb did d)
        (fetchBlocks bdb did d) allS := by
      simpa using hu.symm
    subst hout
    exact availableFilter_mem duration d nowAbs _ _ allS t

/-! ### Claims -/

/-- C1 counterexample: the boundary test is a wall-clock `HH:mm` string
comparison, so with `duration = 1500` a rule 09:00–10:00 (slot 30) emits the
candidate 09:00 even though `540 + 1500 > 600`: the claimed condition
`start + durationMinutes <= rule.end_time` does not characterize candidacy. -/
theorem C1_counterexample :
    useAvailableSlots 5 (some 1) (some 4) 1500 [⟨1, 1, 540, 600, 30, true⟩] [] [] 0 =
        some [540] ∧
      genSlots 1500 30 600 5 540 = some [540] ∧ ¬ (540 + 1500 ≤ 600) := by
  refine ⟨by decide, by decide, by decide⟩

/-- C1 (amended): for in-range data (times below 24:00, duration and
slot_duration at most 1439 minutes, positive slot step), candidates start at
the rule's start time, step by `slot_duration` (not by the requested
duration), and a time is a candidate exactly when it is `start + k*slot_duration`
and `start-time + durationMinutes ≤ end_time`, boundary inclusive; beyond
those bounds the `HH:mm` wall-clock equality can also admit a candidate.
Concretely, rule Monday 09:00–13:00, slot 30, duration 60, no blocks, no
appointments yields [09:00, 09:30, 10:00, 10:30, 11:00, 11:30, 12:00]. -/
theorem C1_candidate_generation :
    (∀ duration slotDur endT startT fuel (l : List Nat),
        startT < endT → endT < 1440 → duration ≤ 1439 → 1 ≤ slotDur → slotDur ≤ 1439 →
        genSlots duration slotDur endT fuel startT = some l →
        ∀ t, t ∈ l ↔ ∃ k, t = startT + k * slotDur ∧ t + duration ≤ endT) ∧
      useAvailableSlots 20 (some 1) (some 4) 60 [⟨1, 1, 540, 780, 30, true⟩] [] [] 0 =
        some [540, 570, 600, 630, 660, 690, 720] := by
  constructor
  · intro duration slotDur endT startT fuel l h1 h2 h3 h4 h5 h6
    exact (genSlots_spec h1 h2 h3 h4 h5 fuel startT l (Or.inl rfl) h6).1
  · decide

/-- C1 witness: rule 09:00–10:00, slot 30, duration 30 generates [09:00, 09:30]. -/
theorem C1_witness :
    540 ∈ ([540, 570] : List Nat) ↔ ∃ k, 540 = 540 + k * 30 ∧ 540 + 30 ≤ 600 :=
  C1_candidate_generation.1 30 30 600 540 5 [540, 570] (by decide) (by decide) (by decide)
    (by decide) (by decide) (by decide) 540

/-- C2: a candidate that survives the grid and today filters is excluded from
the output exactly when it overlaps, under the strict open-interval test, a
fetched (non-cancelled, same doctor and date) appointment or a fetched
(same doctor, date-overlapping) block. -/
theorem C2_occupied_exclusion :
    ∀ fuel did d duration nowAbs (sdb : List Schedule) (adb : List Appointment)
      (bdb : List ScheduleBlock) (out allS : List Nat) (t : Nat),
      useAvailableSlots fuel (some did) (some d) duration sdb adb bdb nowAbs = some out →
      allSlotsOf duration fuel (fetchSchedules sdb did (dayOfWeek d)) = some allS →
      t ∈ allS → (t % 60 = 0 ∨ t % 60 = 30) →
      (nowAbs / 1440 = d → nowAbs ≤ d * 1440 + t) →
      (t ∉ out ↔
        (∃ a ∈ fetchAppointments adb did d, t < a.end_time ∧ a.start_time < t + duration) ∨
        (∃ b ∈ fetchBlocks bdb did d,
          d * 1440 + t < b.end_datetime ∧ b.start_datetime < d * 1440 + t + duration)) := by
  intro fuel did d duration nowAbs sdb adb bdb out allS t hu ha hmem hgrid htoday
  have hchar := mem_useAvailableSlots hu ha t
  have h1 : t ∈ out ↔
      isOccupied duration d (fetchAppointments adb did d) (fetchBlocks bdb did d) t = false := by
    rw [hchar]
    tauto
  have h2 : t ∉ out ↔
      isOccupied duration d (fetchAppointments adb did d) (fetchBlocks bdb did d) t = true := by
    rw [h1]
    simp
  rw [h2, isOccupied]
  simp [List.any_eq_true, apptOverlaps, blockOverlaps]

/-- C2 witness: with an appointment [10:00, 11:00) (status pendiente) the
candidate 10:00 for a 60-minute request is excluded exactly by that overlap. -/
theorem C2_witness :
    600 ∉ ([540, 660, 690, 720] : List Nat) ↔
      (∃ a ∈ fetchAppointments [⟨1, 4, 600, 660, "pendiente"⟩] 1 4,
        600 < a.end_time ∧ a.start_time < 600 + 60) ∨
      (∃ b ∈ fetchBlocks [] 1 4,
        4 * 1440 + 600 < b.end_datetime ∧ b.start_datetime < 4 * 1440 + 600 + 60) :=
  C2_occupied_exclusion 20 1 4 60 0 [⟨1, 1, 540, 780, 30, true⟩]
    [⟨1, 4, 600, 660, "pendiente"⟩] [] [540, 660, 690, 720]
    [540, 570, 600, 630, 660, 690, 720] 600 (by decide) (by decide) (by decide)
    (by decide) (by decide)

/-- C3 counterexample: with two rules fetched late-window-first the output is
neither sorted nor deduplicated — the code performs no sort and no dedupe. -/
theorem C3_counterexample :
    useAvailableSlots 20 (some 1) (some 4) 30
        [⟨1, 1, 600, 660, 30, true⟩, ⟨1, 1, 540, 600, 30, true⟩] [] [] 0 =
        some [600, 630, 540, 570] ∧
      ¬ ([600, 630, 540, 570] : List Nat).Sorted (· ≤ ·) := by
  refine ⟨by decide, by decide⟩

/-- C3 (amended): the output concatenates each fetched rule's candidates in
fetch order with no sorting or dedup step, so only for a doctor with a single
matching rule (with in-range data) is the output strictly sorted and
duplicate-free. -/
theorem C3_single_rule_sorted :
    ∀ fuel did d duration nowAbs (sdb : List Schedule) (adb : List Appointment)
      (bdb : List ScheduleBlock) (out : List Nat) (s : Schedule),
      fetchSchedules sdb did (dayOfWeek d) = [s] →
      s.start_time < s.end_time → s.end_time < 1440 → duration ≤ 1439 →
      1 ≤ s.slot_duration → s.slot_duration ≤ 1439 →
      useAvailableSlots fuel (some did) (some d) duration sdb adb bdb nowAbs = some out →
      out.Sorted (· < ·) ∧ out.Nodup := by
  intro fuel did d duration nowAbs sdb adb bdb out s hfetch h1 h2 h3 h4 h5 hu
  rw [useAvailableSlots_some, hfetch] at hu
  rw [if_neg (by simp)] at hu
  rw [allSlotsOf_single] at hu
  cases hg : genSlots duration s.slot_duration s.end_time fuel s.start_time with
  | none => rw [hg] at hu; cases hu
  | some l =>
    rw [hg] at hu
    have hout : out = availableFilter duration d nowAbs (fetchAppointments adb did d)
        (fetchBlocks bdb did d) l := by
      simpa using hu.symm
    have hsorted : l.Sorted (· < ·) :=
      (genSlots_spec h1 h2 h3 h4 h5 fuel s.start_time l (Or.inl rfl) hg).2
    subst hout
    have hsf : (availableFilter duration d nowAbs (fetchAppointments adb did d)
        (fetchBlocks bdb did d) l).Sorted (· < ·) := by
      unfold availableFilter
      exact List.Pairwise.filter _ hsorted
    exact ⟨hsf, List.Pairwise.imp (fun h => Nat.ne_of_lt h) hsf⟩

/-- C3 witness: the single Monday rule 09:00–13:00 (slot 30, duration 60)
yields a strictly ascending, duplicate-free output. -/
theorem C3_witness :
    ([540, 570, 600, 630, 660, 690, 720] : List Nat).Sorted (· < ·) ∧
      ([540, 570, 600, 630, 660, 690, 720] : List Nat).Nodup :=
  C3_single_rule_sorted 20 1 4 60 0 [⟨1, 1, 540, 780, 30, true⟩] [] []
    [540, 570, 600, 630, 660, 690, 720] ⟨1, 1, 540, 780, 30, true⟩ (by decide)
    (by decide) (by decide) (by decide) (by decide) (by decide) (by decide)

/-- C4: every returned slot has minute component :00 or :30; internally a
slot_duration-15 rule does generate :15/:45 candidates, which the final
filter removes. -/
theorem C4_grid_snap :
    (∀ fuel doctorId date duration nowAbs (sdb : List Schedule) (adb : List Appointment)
        (bdb : List ScheduleBlock) (out : List Nat),
        useAvailableSlots fuel doctorId date duration sdb adb bdb nowAbs = some out →
        ∀ t ∈ out, t % 60 = 0 ∨ t % 60 = 30) ∧
      allSlotsOf 15 20 [⟨1, 1, 540, 600, 15, true⟩] = some [540, 555, 570, 585] ∧
      useAvailableSlots 20 (some 1) (some 4) 15 [⟨1, 1, 540, 600, 15, true⟩] [] [] 0 =
        some [540, 570] := by
  refine ⟨?_, by decide, by decide⟩
  intro fuel doctorId date duration nowAbs sdb adb bdb out hu t ht
  cases doctorId with
  | none =>
    cases date with
    | none =>
      have hout : out = [] := by
        have : (some [] : Option (List Nat)) = some out := hu
        simpa using this.symm
      subst hout
      simp at ht
    | some d =>
      have hout : out = [] := by
        have : (some [] : Option (List Nat)) = some out := hu
        simpa using this.symm
      subst hout
      simp at ht
  | some did =>
    cases date with
    | none =>
      have hout : out = [] := by
        have : (some [] : Option (List Nat)) = some out := hu
        simpa using this.symm
      subst hout
      simp at ht
    | some d =>
      rw [useAvailableSlots_some] at hu
      by_cases hemp : (fetchSchedules sdb did (dayOfWeek d)).isEmpty
      · rw [if_pos hemp] at hu
        have hout : out = [] := by
          simpa using hu.symm
        subst hout
        simp at ht
      · rw [if_neg hemp] at hu
        cases ha : allSlotsOf duration fuel (fetchSchedules sdb did (dayOfWeek d)) with
        | none => rw [ha] at hu; cases hu
        | some allS =>
          rw [ha] at hu
          have hout : out = availableFilter duration d nowAbs (fetchAppointments adb did d)
              (fetchBlocks bdb did d) allS := by
            simpa using hu.symm
          subst hout
          exact ((availableFilter_mem duration d nowAbs _ _ allS t).mp ht).2.2.1

/-- C4 witness: the slot 09:00 of the slot_duration-15 scenario lies on the grid. -/
theorem C4_witness : 540 % 60 = 0 ∨ 540 % 60 = 30 :=
  C4_grid_snap.1 20 (some 1) (some 4) 15 0 [⟨1, 1, 540, 600, 15, true⟩] [] []
    [540, 570] (by decide) 540 (by decide)

/-- C5 counterexample: the past-time filter is strict. With the requested
date being today and the current moment exactly 10:30 (absolute minute 6390
on day 4), the candidate 10:30 — whose start is ≤ the current moment — is
still returned. -/
theorem C5_counterexample :
    useAvailableSlots 20 (some 1) (some 4) 30 [⟨1, 1, 540, 780, 30, true⟩] [] [] 6390 =
        some [630, 660, 690, 720, 750] ∧
      6390 / 1440 = 4 ∧ 4 * 1440 + 630 ≤ 6390 ∧
      630 ∈ ([630, 660, 690, 720, 750] : List Nat) := by
  refine ⟨by decide, by decide, by decide, by decide⟩

/-- C5 (amended): when the requested date is today, every returned slot
starts at or after the current moment (candidates strictly before it are
discarded; one starting exactly now is kept); when the date is not today, no
past-time filtering occurs: membership is decided by candidacy, occupancy
and the grid alone. -/
theorem C5_today_filter :
    ∀ fuel did d duration nowAbs (sdb : List Schedule) (adb : List Appointment)
      (bdb : List ScheduleBlock) (out allS : List Nat),
      useAvailableSlots fuel (some did) (some d) duration sdb adb bdb nowAbs = some out →
      allSlotsOf duration fuel (fetchSchedules sdb did (dayOfWeek d)) = some allS →
      (nowAbs / 1440 = d → ∀ t ∈ out, nowAbs ≤ d * 1440 + t) ∧
      (nowAbs / 1440 ≠ d → ∀ t, t ∈ out ↔ t ∈ allS ∧
        isOccupied duration d (fetchAppointments adb did d) (fetchBlocks bdb did d) t
          = false ∧
        (t % 60 = 0 ∨ t % 60 = 30)) := by
  intro fuel did d duration nowAbs sdb adb bdb out allS hu ha
  have hchar := mem_useAvailableSlots hu ha
  constructor
  · intro htoday t ht
    exact ((hchar t).mp ht).2.2.2 htoday
  · intro hnot t
    rw [hchar t]
    constructor
    · rintro ⟨a, b, c, _⟩
      exact ⟨a, b, c⟩
    · rintro ⟨a, b, c⟩
      exact ⟨a, b, c, fun h => absurd h hnot⟩

/-- C5 witness: at the strict-boundary scenario the kept slot 10:30 indeed
starts no earlier than the current moment. -/
theorem C5_witness : (6390 : Nat) ≤ 4 * 1440 + 630 :=
  (C5_today_filter 20 1 4 30 6390 [⟨1, 1, 540, 780, 30, true⟩] [] []
    [630, 660, 690, 720, 750] [540, 570, 600, 630, 660, 690, 720, 750]
    (by decide) (by decide)).1 (by decide) 630 (by decide)

/-- C6 counterexample: a missing doctorId returns the empty list (a normal
value, not an InvalidArgument signal), and duration 0 is accepted and even
produces slots. -/
theorem C6_counterexample :
    useAvailableSlots 0 none (some 4) 30 [] [] [] 0 = some [] ∧
      useAvailableSlots 5 (some 1) (some 4) 0 [⟨1, 1, 540, 600, 30, true⟩] [] [] 0 =
        some [540, 570, 600] := by
  refine ⟨by decide, by decide⟩

/-- C6 (amended): the computation signals no InvalidArgument condition at
all: a missing doctorId or date yields the empty list, durationMinutes is
not validated, and the absence of matching active rules likewise yields the
empty list — none of these is an error. -/
theorem C6_no_invalid_argument :
    (∀ fuel date duration nowAbs (sdb : List Schedule) (adb : List Appointment)
        (bdb : List ScheduleBlock),
        useAvailableSlots fuel none date duration sdb adb bdb nowAbs = some []) ∧
      (∀ fuel did duration nowAbs (sdb : List Schedule) (adb : List Appointment)
          (bdb : List ScheduleBlock),
          useAvailableSlots fuel (some did) none duration sdb adb bdb nowAbs = some []) ∧
      (∀ fuel did d duration nowAbs (sdb : List Schedule) (adb : List Appointment)
          (bdb : List ScheduleBlock),
          fetchSchedules sdb did (dayOfWeek d) = [] →
          useAvailableSlots fuel (some did) (some d) duration sdb adb bdb nowAbs
            = some []) := by
  refine ⟨?_, ?_, ?_⟩
  · intro fuel date duration nowAbs sdb adb bdb
    cases date <;> rfl
  · intro fuel did duration nowAbs sdb adb bdb
    rfl
  · intro fuel did d duration nowAbs sdb adb bdb h
    rw [useAvailableSlots_some, h]
    rfl

/-- C6 witness: a doctor with no rule for the requested weekday gets the
empty list, not an error. -/
theorem C6_witness :
    useAvailableSlots 3 (some 1) (some 4) 30 [⟨1, 2, 540, 600, 30, true⟩] [] [] 0
      = some [] :=
  C6_no_invalid_argument.2.2 3 1 4 30 0 [⟨1, 2, 540, 600, 30, true⟩] [] [] (by decide)

/-- C8: the computation is a pure function of the request and the three
snapshots — two evaluations over identical snapshots give identical ordered
output, and the snapshots are consumed read-only (they are plain inputs). -/
theorem C8_deterministic :
    ∀ fuel doctorId date duration nowAbs (sdb sdb' : List Schedule)
      (adb adb' : List Appointment) (bdb bdb' : List ScheduleBlock),
      sdb = sdb' → adb = adb' → bdb = bdb' →
      useAvailableSlots fuel doctorId date duration sdb adb bdb nowAbs =
        useAvailableSlots fuel doctorId date duration sdb' adb' bdb' nowAbs := by
  intro fuel doctorId date duration nowAbs sdb sdb' adb adb' bdb bdb' h1 h2 h3
  rw [h1, h2, h3]

/-- C8 witness: two evaluations at the Monday scenario agree. -/
theorem C8_witness :
    useAvailableSlots 20 (some 1) (some 4) 60 [⟨1, 1, 540, 780, 30, true⟩] [] [] 0 =
      useAvailableSlots 20 (some 1) (some 4) 60 [⟨1, 1, 540, 780, 30, true⟩] [] [] 0 :=
  C8_deterministic 20 (some 1) (some 4) 60 0 [⟨1, 1, 540, 780, 30, true⟩]
    [⟨1, 1, 540, 780, 30, true⟩] [] [] [] [] rfl rfl rfl

/-- C9 counterexample: `slot_duration ≥ 1` does not make the loop total:
with slot_duration 1440 and a rule 09:00–10:00 at duration 60, the wall-clock
boundary equality holds at every iteration and the loop never exits. -/
theorem C9_counterexample : ¬ loopTerminates 60 1440 600 540 := by
  rintro ⟨fuel, hf⟩
  have h := genSlots_diverges_1440 fuel 0
  simp only [Nat.mul_zero, Nat.add_zero] at h
  rw [h] at hf
  simp at hf

/-- C9 (amended): the loop terminates for every rule whose slot_duration is
at least 1 and not a multiple of 1440; and the positivity hypothesis is
still necessary: with slot_duration 0 the cursor never advances and the loop
diverges whenever the first candidate fits. -/
theorem C9_termination :
    (∀ duration slotDur endT startT, 1 ≤ slotDur → ¬ (1440 ∣ slotDur) →
        loopTerminates duration slotDur endT startT) ∧
      ¬ loopTerminates 60 0 600 540 := by
  constructor
  · intro duration slotDur endT startT h1 h2
    exact ⟨endT - (startT + duration) + 2, genSlots_exits h1 h2 startT⟩
  · rintro ⟨fuel, hf⟩
    rw [genSlots_diverges_0 fuel] at hf
    simp at hf

/-- C9 witness: a 30-minute step rule's loop terminates. -/
theorem C9_witness : loopTerminates 30 30 780 540 :=
  C9_termination.1 30 30 780 540 (by decide) (by decide)

/-- A well-formed booking request used for concrete booking scenarios. -/
def sampleRequest : BookingRequest :=
  { doctor_id := some "d1", office_id := none, patient_name := some "Ana Lopez",
    patient_email := some "ana@mail.com", patient_phone := some "12345678",
    reason := some "dolor de cabeza", notes := none,
    appointment_date := some "2026-02-02", start_time := some "09:00",
    end_time := some "09:30", duration := some 30, reqType := some "presencial" }

/-- A stored non-cancelled appointment occupying the same
(doctor, date, start time) key as `sampleRequest`. -/
def sampleAppointment : DbAppointment :=
  { doctor_id := "d1", office_id := none, patient_id := "p0", patient_name := "X Y",
    patient_email := "x@y.zw", patient_phone := "00000000", reason := "control",
    notes := none, appointment_date := "2026-02-02", start_time := "09:00",
    end_time := "09:30", duration := 30, apptType := "presencial",
    status := "pendiente" }

/-- An if-branch that returns an error cannot be the taken branch of a chain
that returned `none`: the condition is false and the rest also returned `none`. -/
theorem ite_eq_none_elim {c : Prop} [Decidable c] {m : String} {x : Option String}
    (h : (if c then some m else x) = none) : ¬ c ∧ x = none := by
  by_cases hc : c
  · rw [if_pos hc] at h
    cases h
  · rw [if_neg hc] at h
    exact ⟨hc, h⟩

/-- A request that passes validation carries a duration between 15 and 180. -/
theorem validateRequest_none_duration {data : BookingRequest}
    (h : validateRequest data = none) :
    ∃ d, data.duration = some d ∧ 15 ≤ d ∧ d ≤ 180 := by
  unfold validateRequest at h
  obtain ⟨-, h⟩ := ite_eq_none_elim h
  obtain ⟨-, h⟩ := ite_eq_none_elim h
  obtain ⟨-, h⟩ := ite_eq_none_elim h
  obtain ⟨-, h⟩ := ite_eq_none_elim h
  obtain ⟨-, h⟩ := ite_eq_none_elim h
  obtain ⟨-, h⟩ := ite_eq_none_elim h
  obtain ⟨-, h⟩ := ite_eq_none_elim h
  obtain ⟨-, h⟩ := ite_eq_none_elim h
  obtain ⟨-, h⟩ := ite_eq_none_elim h
  obtain ⟨hdur, h⟩ := ite_eq_none_elim h
  cases hd : data.duration with
  | none =>
    rw [hd] at hdur
    simp at hdur
  | some d =>
    rw [hd] at hdur
    simp at hdur
    exact ⟨d, rfl, by omega, by omega⟩

/-- An invalid duration makes `validateRequest` fail (with some message: an
earlier field may fail first, but the chain can never return `none`). -/
theorem validateRequest_some_of_bad_duration (data : BookingRequest)
    (h : data.duration = none ∨ ∃ d, data.duration = some d ∧ (d < 15 ∨ 180 < d)) :
    ∃ e, validateRequest data = some e := by
  cases he : validateRequest data with
  | some e => exact ⟨e, rfl⟩
  | none =>
    exfalso
    obtain ⟨d, hd, h15, h180⟩ := validateRequest_none_duration he
    rcases h with h | ⟨d', hd', hlt⟩
    · rw [h] at hd
      cases hd
    · rw [hd'] at hd
      have hdd : d' = d := by
        injection hd
      subst hdd
      omega

/-- C7 counterexample: the duplicate check uses `maybeSingle`, whose
multiple-rows error is discarded. With two existing non-cancelled
appointments on the key, a valid booking for the same key is inserted
(status 201, a third appointment appended) instead of being rejected. -/
theorem C7_counterexample :
    validateRequest sampleRequest = none ∧
      (conflictsOf sampleRequest ⟨[sampleAppointment, sampleAppointment], []⟩).length
        = 2 ∧
      sampleAppointment.status ≠ "cancelada" ∧
      (createAppointment sampleRequest
        ⟨[sampleAppointment, sampleAppointment], []⟩ "p9").1 = 201 ∧
      (createAppointment sampleRequest
        ⟨[sampleAppointment, sampleAppointment], []⟩ "p9").2.appointments.length = 3 := by
  refine ⟨rfl, rfl, by decide, rfl, rfl⟩

/-- C7 (amended): for a valid request, if exactly one non-cancelled
appointment already occupies the (doctor, date, start time) key the handler
answers 409 and leaves the database unchanged; if none does, it answers 201
and appends exactly one appointment whose initial status is `pendiente`
(when two or more already exist, the single-row conflict lookup errors out,
the error is ignored, and the handler inserts anyway). -/
theorem C7_conflict_check :
    ∀ (data : BookingRequest) (db : Db) (freshId : String),
      validateRequest data = none →
      ((conflictsOf data db).length = 1 →
        createAppointment data db freshId = (409, db)) ∧
      (conflictsOf data db = [] →
        (createAppointment data db freshId).1 = 201 ∧
        ∃ a, (createAppointment data db freshId).2.appointments
            = db.appointments ++ [a] ∧ a.status = "pendiente") := by
  intro data db freshId hv
  constructor
  · intro hlen
    obtain ⟨x, hx⟩ : ∃ x, conflictsOf data db = [x] := by
      cases hc : conflictsOf data db with
      | nil => rw [hc] at hlen; simp at hlen
      | cons y ys =>
        cases ys with
        | nil => exact ⟨y, rfl⟩
        | cons z zs => rw [hc] at hlen; simp at hlen
    unfold createAppointment
    rw [hv, hx]
    rfl
  · intro hnil
    unfold createAppointment
    rw [hv, hnil]
    exact ⟨rfl, _, rfl, rfl⟩

/-- C7 witness: a valid booking against an empty database goes through the
no-conflict branch. -/
theorem C7_witness :
    ((conflictsOf sampleRequest ⟨[], []⟩).length = 1 →
        createAppointment sampleRequest ⟨[], []⟩ "p1" = (409, ⟨[], []⟩)) ∧
      (conflictsOf sampleRequest ⟨[], []⟩ = [] →
        (createAppointment sampleRequest ⟨[], []⟩ "p1").1 = 201 ∧
        ∃ a, (createAppointment sampleRequest ⟨[], []⟩ "p1").2.appointments
            = (Db.mk [] []).appointments ++ [a] ∧ a.status = "pendiente") :=
  C7_conflict_check sampleRequest ⟨[], []⟩ "p1" rfl

/-- C10: a booking request whose duration is missing, below 15 or above 180
minutes is rejected with HTTP 400 before any database write: the returned
database equals the input database, so no patient or appointment is created. -/
theorem C10_duration_validation :
    ∀ (data : BookingRequest) (db : Db) (freshId : String),
      (data.duration = none ∨ ∃ d, data.duration = some d ∧ (d < 15 ∨ 180 < d)) →
      createAppointment data db freshId = (400, db) := by
  intro data db freshId h
  obtain ⟨e, he⟩ := validateRequest_some_of_bad_duration data h
  unfold createAppointment
  rw [he]

/-- C10 witness: a 10-minute request is refused without touching the database. -/
theorem C10_witness :
    createAppointment { sampleRequest with duration := some 10 } ⟨[], []⟩ "p1"
      = (400, ⟨[], []⟩) :=
  C10_duration_validation { sampleRequest with duration := some 10 } ⟨[], []⟩ "p1"
    (Or.inr ⟨10, rfl, Or.inl (by decide)⟩)

end Luxalud
